import Mathlib

/-!
Verification of the qua-libs example repository (quantum-control calibration
scripts and configuration tables) against its natural-language specification.

The Python sources are shallowly embedded: pure numeric helpers become Lean
functions over `ℚ` (Python float arithmetic is modelled as exact rational
arithmetic; the transcendental library functions `np.exp`, `np.log`,
`np.cos`, `np.sin` and the float power `**` are abstracted as explicit
function parameters, so every definition stays computable), Python lists and
numpy 1-d arrays become `List ℚ`, Python strings become `String` or
`List Char`, the static configuration dictionaries become concrete Lean
structures, and functions that can `raise` return `Except`.
-/

/-- Embedding of `np.linspace(start, stop, num)` restricted to 1-d use:
`num` evenly spaced samples from `start` to `stop` inclusive.  For `num = 1`
numpy returns `[start]`, which the formula below also yields since `i = 0`
makes the step term vanish. -/
def linspace (start stop : ℚ) (num : ℕ) : List ℚ :=
  (List.range num).map (fun i : ℕ => start + (i : ℚ) * ((stop - start) / ((num : ℚ) - 1)))

/-- Embedding of `gauss(amplitude, mu, sigma, length)` from
`configuration_cavity_locking_ETHZ_OPX1.py`:
`t = np.linspace(-length / 2, length / 2, length)` followed by
`amplitude * np.exp(-((t - mu) ** 2) / (2 * sigma ** 2))`, returned as a plain
list of floats.  `rexp` abstracts `np.exp`. -/
def gauss (rexp : ℚ → ℚ) (amplitude mu sigma : ℚ) (length : ℕ) : List ℚ :=
  (linspace (-((length : ℚ) / 2)) ((length : ℚ) / 2) length).map
    (fun t => amplitude * rexp (-((t - mu) ^ 2) / (2 * sigma ^ 2)))

/-- Embedding of `IQ_imbalance(g, phi)` from `two_qubit_rb_config.py`:
`c = np.cos(phi)`, `s = np.sin(phi)`, `N = 1 / ((1 - g**2) * (2 * c**2 - 1))`,
returning `[float(N * x) for x in [(1 - g) * c, (1 + g) * s, (1 - g) * s, (1 + g) * c]]`.
`rcos` and `rsin` abstract `np.cos` and `np.sin`. -/
def IQ_imbalance (rcos rsin : ℚ → ℚ) (g phi : ℚ) : List ℚ :=
  let c := rcos phi
  let s := rsin phi
  let N := 1 / ((1 - g ^ 2) * (2 * c ^ 2 - 1))
  [N * ((1 - g) * c), N * ((1 + g) * s), N * ((1 - g) * s), N * ((1 + g) * c)]

/-- Embedding of `exponential_decay(cycle_depths, a, layer_fid)` from
`macros.py`: the elementwise `a * layer_fid ** cycle_depths`.  `rpow`
abstracts the float power `**` (base first, exponent second). -/
def exponential_decay (rpow : ℚ → ℚ → ℚ) (cycle_depths : List ℚ)
    (a layer_fid : ℚ) : List ℚ :=
  cycle_depths.map (fun x => a * rpow layer_fid x)

/-- Embedding of the clamping step `q = np.maximum(q, epsilon)` inside
`cross_entropy` in `macros.py`: the elementwise maximum of `q` and
`epsilon`. -/
def clampedQ (q : List ℚ) (epsilon : ℚ) : List ℚ :=
  q.map (fun b => max b epsilon)

/-- Embedding of `cross_entropy(p, q, epsilon)` from `macros.py`:
`q = np.maximum(q, epsilon)` then `-np.sum(p * np.log(q))` (elementwise
product, so the two arrays are consumed pairwise).  `rlog` abstracts
`np.log`. -/
def cross_entropy (rlog : ℚ → ℚ) (p q : List ℚ) (epsilon : ℚ) : ℚ :=
  -(List.zipWith (fun a b => a * rlog b) p (clampedQ q epsilon)).sum

/-- C2: for every amplitude, mu, sigma and every positive length, `gauss`
returns a list of exactly `length` entries whose `i`-th entry is
`amplitude * exp (-((t i - mu)^2) / (2 * sigma^2))`, where
`t i = -length/2 + i * (length / (length - 1))` are the `length` evenly
spaced sample points from `-length/2` to `length/2`; for `length ≥ 2` the
first point is `-length/2` and the last is `length/2`. -/
theorem gauss_samples (rexp : ℚ → ℚ) (amplitude mu sigma : ℚ) (length : ℕ)
    (hpos : 0 < length) (i : ℕ) (hi : i < length) :
    (gauss rexp amplitude mu sigma length).length = length ∧
    (gauss rexp amplitude mu sigma length)[i]? =
      some (amplitude * rexp (-(((-((length : ℚ) / 2) +
        (i : ℚ) * ((length : ℚ) / ((length : ℚ) - 1))) - mu) ^ 2) /
        (2 * sigma ^ 2))) ∧
    (2 ≤ length →
      (linspace (-((length : ℚ) / 2)) ((length : ℚ) / 2) length)[0]? =
          some (-((length : ℚ) / 2)) ∧
      (linspace (-((length : ℚ) / 2)) ((length : ℚ) / 2) length)[length - 1]? =
          some ((length : ℚ) / 2)) := by
  refine ⟨by simp [gauss, linspace], ?_, ?_⟩
  · have hrange : (List.range length)[i]? = some i := by
      simp [List.getElem?_range, hi]
    simp only [gauss, linspace, List.getElem?_map, hrange, Option.map_some']
    exact congrArg (fun z => some (amplitude * rexp z)) (by ring)
  · intro h2
    have hne : ((length : ℚ) - 1) ≠ 0 := by
      have : (2 : ℚ) ≤ (length : ℚ) := by exact_mod_cast h2
      nlinarith
    constructor
    · simp [linspace, List.getElem?_map, List.getElem?_range, hpos]
    · have hlt : length - 1 < length := Nat.sub_lt hpos one_pos
      have hrange : (List.range length)[length - 1]? = some (length - 1) := by
        simp [List.getElem?_range, hlt]
      simp only [linspace, List.getElem?_map, hrange, Option.map_some',
        Option.some.injEq]
      have hcast : ((length - 1 : ℕ) : ℚ) = (length : ℚ) - 1 := by
        have h1 : (1 : ℕ) ≤ length := hpos
        push_cast [Nat.cast_sub h1]
        ring
      rw [hcast]
      field_simp
      ring

/-- C2 witness: instantiation at `rexp = fun x => x`, amplitude 1, mu 0,
sigma 1, length 2, index 0. -/
theorem gauss_samples_witness :
    (0 : ℕ) < 2 ∧
    ((gauss (fun x => x) 1 0 1 2).length = 2 ∧
      (gauss (fun x => x) 1 0 1 2)[0]? =
        some (1 * ((fun x => x) (-(((-((2 : ℚ) / 2) +
          ((0 : ℕ) : ℚ) * ((2 : ℚ) / ((2 : ℚ) - 1))) - 0) ^ 2) /
          (2 * 1 ^ 2)))) ∧
      (2 ≤ 2 →
        (linspace (-((2 : ℚ) / 2)) ((2 : ℚ) / 2) 2)[0]? =
            some (-((2 : ℚ) / 2)) ∧
        (linspace (-((2 : ℚ) / 2)) ((2 : ℚ) / 2) 2)[2 - 1]? =
            some ((2 : ℚ) / 2))) :=
  ⟨by decide, gauss_samples (fun x => x) 1 0 1 2 (by decide) 0 (by decide)⟩

/-- C3: for every g and phi with nonzero correction denominator,
`IQ_imbalance` returns the 4-entry row-major matrix
`N * [(1-g)*c, (1+g)*s, (1-g)*s, (1+g)*c]` with `c = cos phi`, `s = sin phi`
and `N = 1 / ((1 - g^2) * (2*c^2 - 1))`; in particular, when `cos 0 = 1` and
`sin 0 = 0`, `IQ_imbalance 0 0` is the identity matrix `[1, 0, 0, 1]`. -/
theorem IQ_imbalance_matrix (rcos rsin : ℚ → ℚ) (g phi : ℚ)
    (hden : (1 - g ^ 2) * (2 * (rcos phi) ^ 2 - 1) ≠ 0)
    (hcos0 : rcos 0 = 1) (hsin0 : rsin 0 = 0) :
    (IQ_imbalance rcos rsin g phi).length = 4 ∧
    IQ_imbalance rcos rsin g phi =
      [(1 / ((1 - g ^ 2) * (2 * (rcos phi) ^ 2 - 1))) * ((1 - g) * rcos phi),
       (1 / ((1 - g ^ 2) * (2 * (rcos phi) ^ 2 - 1))) * ((1 + g) * rsin phi),
       (1 / ((1 - g ^ 2) * (2 * (rcos phi) ^ 2 - 1))) * ((1 - g) * rsin phi),
       (1 / ((1 - g ^ 2) * (2 * (rcos phi) ^ 2 - 1))) * ((1 + g) * rcos phi)] ∧
    IQ_imbalance rcos rsin 0 0 = [1, 0, 0, 1] := by
  refine ⟨rfl, rfl, ?_⟩
  simp [IQ_imbalance, hcos0, hsin0]
  norm_num

/-- C3 witness: instantiation at `rcos = fun x => 1`, `rsin = fun x => 0`,
`g = 0`, `phi = 0`. -/
theorem IQ_imbalance_matrix_witness :
    (IQ_imbalance (fun _ => 1) (fun _ => 0) 0 0).length = 4 ∧
    IQ_imbalance (fun _ => 1) (fun _ => 0) 0 0 =
      [(1 / ((1 - (0 : ℚ) ^ 2) * (2 * ((fun _ : ℚ => (1 : ℚ)) 0) ^ 2 - 1))) *
         ((1 - 0) * (fun _ : ℚ => (1 : ℚ)) 0),
       (1 / ((1 - (0 : ℚ) ^ 2) * (2 * ((fun _ : ℚ => (1 : ℚ)) 0) ^ 2 - 1))) *
         ((1 + 0) * (fun _ : ℚ => (0 : ℚ)) 0),
       (1 / ((1 - (0 : ℚ) ^ 2) * (2 * ((fun _ : ℚ => (1 : ℚ)) 0) ^ 2 - 1))) *
         ((1 - 0) * (fun _ : ℚ => (0 : ℚ)) 0),
       (1 / ((1 - (0 : ℚ) ^ 2) * (2 * ((fun _ : ℚ => (1 : ℚ)) 0) ^ 2 - 1))) *
         ((1 + 0) * (fun _ : ℚ => (1 : ℚ)) 0)] ∧
    IQ_imbalance (fun _ => 1) (fun _ => 0) 0 0 = [1, 0, 0, 1] :=
  IQ_imbalance_matrix (fun _ => 1) (fun _ => 0) 0 0 (by norm_num) rfl rfl

/-- C4: `exponential_decay` maps each entry `x` of `cycle_depths` to
`a * layer_fid ** x`, preserving the array length. -/
theorem exponential_decay_model (rpow : ℚ → ℚ → ℚ) (cycle_depths : List ℚ)
    (a layer_fid : ℚ) (i : ℕ) (x : ℚ) (hx : cycle_depths[i]? = some x) :
    (exponential_decay rpow cycle_depths a layer_fid).length =
      cycle_depths.length ∧
    (exponential_decay rpow cycle_depths a layer_fid)[i]? =
      some (a * rpow layer_fid x) := by
  refine ⟨by simp [exponential_decay], ?_⟩
  simp [exponential_decay, List.getElem?_map, hx]

/-- C4 witness: instantiation at `rpow x y = x`, depths `[3]`, `a = 2`,
`layer_fid = 5`, index 0. -/
theorem exponential_decay_model_witness :
    (exponential_decay (fun x _ => x) [3] 2 5).length = ([3] : List ℚ).length ∧
    (exponential_decay (fun x _ => x) [3] 2 5)[0]? =
      some (2 * (fun x _ => x) 5 3) :=
  exponential_decay_model (fun x _ => x) [3] 2 5 0 3 rfl

/-- C7: `gauss`, `IQ_imbalance` and `cross_entropy` are deterministic: equal
arguments (with the same embedded library functions) produce equal results.
Freedom from mutation holds by the shape of the embedding: each source
function only builds new lists (`cross_entropy` rebinds its local `q` to a
fresh `np.maximum` array and never writes through its arguments), so the
three functions are total pure functions of their arguments. -/
theorem pure_helpers_deterministic (rexp rlog rcos rsin : ℚ → ℚ)
    (a₁ mu₁ s₁ : ℚ) (L₁ : ℕ) (a₂ mu₂ s₂ : ℚ) (L₂ : ℕ)
    (g₁ phi₁ g₂ phi₂ : ℚ) (p₁ q₁ p₂ q₂ : List ℚ) (ε₁ ε₂ : ℚ)
    (hg : (a₁, mu₁, s₁, L₁) = (a₂, mu₂, s₂, L₂))
    (hiq : (g₁, phi₁) = (g₂, phi₂))
    (hce : (p₁, q₁, ε₁) = (p₂, q₂, ε₂)) :
    gauss rexp a₁ mu₁ s₁ L₁ = gauss rexp a₂ mu₂ s₂ L₂ ∧
    IQ_imbalance rcos rsin g₁ phi₁ = IQ_imbalance rcos rsin g₂ phi₂ ∧
    cross_entropy rlog p₁ q₁ ε₁ = cross_entropy rlog p₂ q₂ ε₂ := by
  simp only [Prod.mk.injEq] at hg hiq hce
  obtain ⟨rfl, rfl, rfl, rfl⟩ := hg
  obtain ⟨rfl, rfl⟩ := hiq
  obtain ⟨rfl, rfl, rfl⟩ := hce
  exact ⟨rfl, rfl, rfl⟩

/-- C7 witness: instantiation at identity library functions and small
concrete arguments. -/
theorem pure_helpers_deterministic_witness :
    gauss id 1 0 1 2 = gauss id 1 0 1 2 ∧
    IQ_imbalance id id 0 0 = IQ_imbalance id id 0 0 ∧
    cross_entropy id [1] [1] (1 / 2) = cross_entropy id [1] [1] (1 / 2) :=
  pure_helpers_deterministic id id id id 1 0 1 2 1 0 1 2 0 0 0 0
    [1] [1] [1] [1] (1 / 2) (1 / 2) rfl rfl rfl

/-- C9: with nonnegative `q` and positive `epsilon`, every value that
`cross_entropy` feeds to the logarithm is the clamped value
`max (q i) epsilon`, hence at least `epsilon` and strictly positive; the
whole computation factors through the clamped copy `clampedQ q epsilon` of
the input array. -/
theorem cross_entropy_clamps (rlog : ℚ → ℚ) (p q : List ℚ) (ε : ℚ)
    (hq : ∀ x ∈ q, 0 ≤ x) (hε : 0 < ε) :
    (∀ x ∈ clampedQ q ε, ε ≤ x ∧ 0 < x) ∧
    cross_entropy rlog p q ε =
      -(List.zipWith (fun a b => a * b) p ((clampedQ q ε).map rlog)).sum := by
  constructor
  · intro x hx
    simp only [clampedQ, List.mem_map] at hx
    obtain ⟨b, hb, rfl⟩ := hx
    exact ⟨le_max_right _ _, lt_of_lt_of_le hε (le_max_right _ _)⟩
  · simp [cross_entropy, List.zipWith_map_right]

/-- C9 witness: instantiation at `rlog = id`, `p = [1]`, `q = [0]`,
`epsilon = 1/2`. -/
theorem cross_entropy_clamps_witness :
    (∀ x ∈ clampedQ [0] (1 / 2 : ℚ), (1 / 2 : ℚ) ≤ x ∧ 0 < x) ∧
    cross_entropy id [1] [0] (1 / 2) =
      -(List.zipWith (fun a b => a * b) [1]
        ((clampedQ [0] (1 / 2 : ℚ)).map id)).sum :=
  cross_entropy_clamps id [1] [0] (1 / 2)
    (by intro x hx; simp at hx; simp [hx]) (by norm_num)

/-- Action emitted by the reset helpers: the vendor-runtime operations that
`reset_qubit` schedules (a `wait` on the qubit element, or the active-reset
feedback loop of `active_reset`).  The QUA loop body itself runs inside the
vendor runtime and is out of scope; what matters here is which action is
requested and with which validated parameters. -/
inductive ResetAction where
  | wait (duration : ℚ) (qubit : String)
  | activeReset (threshold : ℚ) (qubit resonator : String) (max_tries : ℚ)
deriving DecidableEq

/-- Exception message raised by `reset_qubit` for a bad `cooldown_time`. -/
def msg_cooldown : String := "\x27cooldown_time\x27 must be an integer > 4 clock cycles"

/-- Exception message raised by `reset_qubit` for a missing `threshold`. -/
def msg_threshold : String := "\x27threshold\x27 must be specified for active reset."

/-- Exception message raised by `reset_qubit` for a bad `max_tries`. -/
def msg_max_tries : String := "\x27max_tries\x27 must be an integer > 0."

/-- Exception message raised by `active_reset` for a bad `max_tries`. -/
def msg_max_count : String := "max_count must be an integer >= 1."

/-- Embedding of `active_reset(threshold, qubit, resonator, max_tries, Ig)`
from `macros.py`: raises unless `max_tries` is an integer `>= 1`, otherwise
performs the active-reset feedback loop.  Python's
`not float(max_tries).is_integer()` becomes a denominator check on `ℚ`; the
`Ig` QUA variable carries no validation logic and is omitted. -/
def active_reset (threshold : ℚ) (qubit resonator : String) (max_tries : ℚ) :
    Except String (List ResetAction) :=
  if max_tries < 1 ∨ ¬ max_tries.den = 1 then
    Except.error msg_max_count
  else
    Except.ok [ResetAction.activeReset threshold qubit resonator max_tries]

/-- Embedding of `reset_qubit(method, qubit, resonator, **kwargs)` from
`macros.py`.  `cooldown_time` and `threshold` are `none` when the keyword is
absent (or passed as Python `None`, which the code treats identically);
`max_tries` distinguishes an absent keyword (`none`, defaulting to `1`) from
an explicit `None` (`some none`) and from a numeric value (`some (some m)`). -/
def reset_qubit (method qubit resonator : String)
    (cooldown_time threshold : Option ℚ) (max_tries : Option (Option ℚ)) :
    Except String (List ResetAction) :=
  if method = "cooldown" then
    match cooldown_time with
    | none => Except.error msg_cooldown
    | some ct =>
      if ct < 4 then Except.error msg_cooldown
      else Except.ok [ResetAction.wait ct qubit]
  else if method = "active" then
    match threshold with
    | none => Except.error msg_threshold
    | some th =>
      match max_tries.getD (some 1) with
      | none => Except.error msg_max_tries
      | some m =>
        if ¬ m.den = 1 ∨ m < 1 then Except.error msg_max_tries
        else active_reset th qubit resonator m
  else
    Except.ok []

/-- Decides whether an `Except` result is an error (the call raised). -/
def isErr {α : Type} (r : Except String α) : Bool :=
  match r with
  | Except.error _ => true
  | Except.ok _ => false

/-- Claim C8's raise condition, written as a decidable predicate following
the claim's words: method `cooldown` with `cooldown_time` absent or below 4,
or method `active` with `threshold` absent or `max_tries` (defaulting to 1
when absent) explicitly `None`, non-integral, or below 1. -/
def raisesSpec (method : String) (cooldown_time threshold : Option ℚ)
    (max_tries : Option (Option ℚ)) : Bool :=
  (method == "cooldown" &&
    (match cooldown_time with
     | none => true
     | some c => decide (c < 4))) ||
  (method == "active" &&
    (threshold.isNone ||
      (match max_tries with
       | none => false
       | some none => true
       | some (some m) => !(m.den == 1) || decide (m < 1))))

/-- C8: `reset_qubit` raises exactly under the conditions of `raisesSpec`;
for any method other than `cooldown` and `active` it performs no operation
and returns normally; and `cooldown_time = 4` is accepted without raising. -/
theorem reset_qubit_raises_iff (method qubit resonator : String)
    (cooldown_time threshold : Option ℚ) (max_tries : Option (Option ℚ)) :
    isErr (reset_qubit method qubit resonator cooldown_time threshold
        max_tries) =
      raisesSpec method cooldown_time threshold max_tries ∧
    (method ≠ "cooldown" → method ≠ "active" →
      reset_qubit method qubit resonator cooldown_time threshold max_tries =
        Except.ok []) ∧
    reset_qubit "cooldown" qubit resonator (some 4) threshold max_tries =
      Except.ok [ResetAction.wait 4 qubit] := by
  refine ⟨?_, ?_, ?_⟩
  · by_cases hc : method = "cooldown"
    · subst hc
      cases cooldown_time with
      | none => simp [reset_qubit, raisesSpec, isErr]
      | some c =>
        by_cases h4 : c < 4
        · simp [reset_qubit, raisesSpec, isErr, h4]
        · simp [reset_qubit, raisesSpec, isErr, h4]
    · by_cases ha : method = "active"
      · subst ha
        cases threshold with
        | none => simp [reset_qubit, raisesSpec, isErr]
        | some th =>
          cases max_tries with
          | none => simp [reset_qubit, raisesSpec, isErr, active_reset]
          | some mt =>
            cases mt with
            | none => simp [reset_qubit, raisesSpec, isErr]
            | some m =>
              by_cases hden : m.den = 1
              · by_cases hm1 : m < 1
                · simp [reset_qubit, raisesSpec, isErr, hden, hm1]
                · simp [reset_qubit, raisesSpec, isErr, active_reset, hden, hm1]
              · simp [reset_qubit, raisesSpec, isErr, hden]
      · simp [reset_qubit, raisesSpec, isErr, hc, ha]
  · intro h1 h2
    simp [reset_qubit, h1, h2]
  · simp [reset_qubit]

/-- C8 witness: a method string other than `cooldown` and `active` returns
normally with no action. -/
theorem reset_qubit_raises_iff_witness :
    reset_qubit "other" "q0" "rr0" none none none = Except.ok [] :=
  (reset_qubit_raises_iff "other" "q0" "rr0" none none none).2.1
    (by decide) (by decide)

/-- C1 counterexample: the repository constructs and raises its own
exception: `reset_qubit` with method `cooldown` and no `cooldown_time`
raises the repository-built message, refuting the claim that `reset_qubit`
never raises a repository-constructed exception. -/
theorem reset_qubit_raises_cex :
    reset_qubit "cooldown" "q0" "rr0" none none none =
      Except.error msg_cooldown := rfl

/-- C1 amended: `reset_qubit` and `active_reset` do raise repository-built
exceptions, but only the four fixed argument-validation messages; no other
failure handling exists in these helpers. -/
theorem reset_qubit_errors_only_validation :
    (∀ (method qubit resonator : String) (ct th : Option ℚ)
        (mt : Option (Option ℚ)) (e : String),
      reset_qubit method qubit resonator ct th mt = Except.error e →
        e = msg_cooldown ∨ e = msg_threshold ∨ e = msg_max_tries ∨
          e = msg_max_count) ∧
    (∀ (threshold : ℚ) (qubit resonator : String) (max_tries : ℚ)
        (e : String),
      active_reset threshold qubit resonator max_tries = Except.error e →
        e = msg_max_count) := by
  constructor
  · intro method qubit resonator ct th mt e h
    by_cases hc : method = "cooldown"
    · subst hc
      cases ct with
      | none =>
        simp [reset_qubit] at h
        exact Or.inl h.symm
      | some c =>
        by_cases h4 : c < 4
        · simp [reset_qubit, h4] at h
          exact Or.inl h.symm
        · simp [reset_qubit, h4] at h
    · by_cases ha : method = "active"
      · subst ha
        cases th with
        | none =>
          simp [reset_qubit] at h
          exact Or.inr (Or.inl h.symm)
        | some thv =>
          cases mt with
          | none =>
            simp [reset_qubit, active_reset] at h
          | some mtv =>
            cases mtv with
            | none =>
              simp [reset_qubit] at h
              exact Or.inr (Or.inr (Or.inl h.symm))
            | some m =>
              by_cases hden : m.den = 1
              · by_cases hm1 : m < 1
                · simp [reset_qubit, hden, hm1] at h
                  exact Or.inr (Or.inr (Or.inl h.symm))
                · simp [reset_qubit, active_reset, hden, hm1] at h
              · simp [reset_qubit, hden] at h
                exact Or.inr (Or.inr (Or.inl h.symm))
      · simp [reset_qubit, hc, ha] at h
  · intro threshold qubit resonator max_tries e h
    by_cases hcond : max_tries < 1 ∨ ¬ max_tries.den = 1
    · simp [active_reset, hcond] at h
      exact h.symm
    · simp [active_reset, hcond] at h

/-- C1 amended witness: the error raised on a missing `cooldown_time` is one
of the four validation messages. -/
theorem reset_qubit_errors_only_validation_witness :
    msg_cooldown = msg_cooldown ∨ msg_cooldown = msg_threshold ∨
      msg_cooldown = msg_max_tries ∨ msg_cooldown = msg_max_count :=
  reset_qubit_errors_only_validation.1 "cooldown" "q0" "rr0" none none none
    msg_cooldown rfl

/-- Big-endian binary digit list of `n` without leading zeros (empty for 0):
the digits produced by Python's `bin(n)[2:]` for positive `n`.  A fuel
argument (any value at least `n` suffices) keeps the recursion structural so
that the definition evaluates by `decide`. -/
def natBitsAux : ℕ → ℕ → List Char
  | 0, _ => []
  | fuel + 1, n =>
    if n = 0 then []
    else natBitsAux fuel (n / 2) ++ [if n % 2 = 1 then '1' else '0']

/-- Binary digit list of `n` without leading zeros (empty for `n = 0`). -/
def natBits (n : ℕ) : List Char := natBitsAux n n

/-- Embedding of Python's `bin(n)[2:]` for `n ≥ 0`: the base-2 digits of
`n`, with `bin(0)[2:] = "0"`. -/
def pyBin (n : ℕ) : List Char := if n = 0 then ['0'] else natBits n

/-- Embedding of Python's `str.zfill(width)` on digit strings: left-pad with
`'0'` up to `width`; strings already at least `width` long are returned
unchanged (the padding count truncates to zero). -/
def zfill (s : List Char) (width : ℕ) : List Char :=
  List.replicate (width - s.length) '0' ++ s

/-- Embedding of `binary(n, length)` from `macros.py`:
`bin(n)[2:].zfill(length)`. -/
def binary (n length : ℕ) : List Char := zfill (pyBin n) length

/-- Value of a big-endian binary digit string. -/
def bitsToNat (l : List Char) : ℕ :=
  l.foldl (fun acc c => 2 * acc + (if c = '1' then 1 else 0)) 0

lemma natBitsAux_congr (n : ℕ) :
    ∀ f₁ f₂ : ℕ, n ≤ f₁ → n ≤ f₂ → natBitsAux f₁ n = natBitsAux f₂ n := by
  induction n using Nat.strong_induction_on with
  | _ n ih =>
    intro f₁ f₂ h₁ h₂
    by_cases h0 : n = 0
    · subst h0
      cases f₁ <;> cases f₂ <;> simp [natBitsAux]
    · obtain ⟨g₁, rfl⟩ : ∃ g, f₁ = g + 1 := ⟨f₁ - 1, by omega⟩
      obtain ⟨g₂, rfl⟩ : ∃ g, f₂ = g + 1 := ⟨f₂ - 1, by omega⟩
      simp only [natBitsAux, h0, if_false]
      congr 1
      exact ih (n / 2) (Nat.div_lt_self (Nat.pos_of_ne_zero h0) one_lt_two)
        g₁ g₂ (by omega) (by omega)

lemma natBits_eq (n : ℕ) (h : n ≠ 0) :
    natBits n = natBits (n / 2) ++ [if n % 2 = 1 then '1' else '0'] := by
  obtain ⟨k, rfl⟩ : ∃ k, n = k + 1 := ⟨n - 1, by omega⟩
  have hstep : natBits (k + 1) =
      natBitsAux k ((k + 1) / 2) ++ [if (k + 1) % 2 = 1 then '1' else '0'] := by
    simp [natBits, natBitsAux]
  rw [hstep]
  congr 1
  exact natBitsAux_congr ((k + 1) / 2) k ((k + 1) / 2) (by omega) (le_refl _)

lemma natBits_length_le_iff (n : ℕ) :
    ∀ L : ℕ, (natBits n).length ≤ L ↔ n < 2 ^ L := by
  induction n using Nat.strong_induction_on with
  | _ n ih =>
    intro L
    by_cases h0 : n = 0
    · subst h0
      constructor
      · intro _
        exact pow_pos two_pos L
      · intro _
        exact Nat.zero_le L
    · rw [natBits_eq n h0]
      cases L with
      | zero =>
        simp only [List.length_append, List.length_cons, List.length_nil,
          pow_zero]
        omega
      | succ K =>
        have hdiv : n / 2 < n :=
          Nat.div_lt_self (Nat.pos_of_ne_zero h0) one_lt_two
        have hih := ih (n / 2) hdiv K
        have h2 : n < 2 ^ (K + 1) ↔ n / 2 < 2 ^ K := by
          rw [pow_succ]
          exact (Nat.div_lt_iff_lt_mul two_pos).symm
        simp only [List.length_append, List.length_cons, List.length_nil]
        omega

lemma pyBin_length_pos (n : ℕ) : 1 ≤ (pyBin n).length := by
  by_cases h0 : n = 0
  · subst h0
    decide
  · rw [show pyBin n = natBits n by simp [pyBin, h0], natBits_eq n h0]
    simp

lemma pyBin_length_le_iff (n L : ℕ) (hL : 1 ≤ L) :
    (pyBin n).length ≤ L ↔ n < 2 ^ L := by
  by_cases h0 : n = 0
  · subst h0
    constructor
    · intro _
      exact pow_pos two_pos L
    · intro _
      simpa [pyBin] using hL
  · rw [show pyBin n = natBits n by simp [pyBin, h0]]
    exact natBits_length_le_iff n L

lemma bitsToNat_append_bit (l : List Char) (c : Char) :
    bitsToNat (l ++ [c]) = 2 * bitsToNat l + (if c = '1' then 1 else 0) := by
  simp [bitsToNat, List.foldl_append]

lemma bitsToNat_natBits (n : ℕ) : bitsToNat (natBits n) = n := by
  induction n using Nat.strong_induction_on with
  | _ n ih =>
    by_cases h0 : n = 0
    · subst h0
      rfl
    · rw [natBits_eq n h0, bitsToNat_append_bit,
        ih (n / 2) (Nat.div_lt_self (Nat.pos_of_ne_zero h0) one_lt_two)]
      by_cases hm : n % 2 = 1
      · simp only [hm, if_pos]
        omega
      · have hc : (if n % 2 = 1 then '1' else '0') = '0' := by simp [hm]
        rw [hc]
        have hz : (if ('0' : Char) = '1' then (1 : ℕ) else 0) = 0 := by decide
        rw [hz]
        omega

lemma bitsToNat_replicate_zero_append (k : ℕ) (l : List Char) :
    bitsToNat (List.replicate k '0' ++ l) = bitsToNat l := by
  induction k with
  | zero => rfl
  | succ k ih =>
    have hstep : bitsToNat (List.replicate (k + 1) '0' ++ l) =
        bitsToNat (List.replicate k '0' ++ l) := by
      simp [bitsToNat, List.replicate_succ]
    rw [hstep, ih]

/-- C10 counterexample: at `n = 0`, `length = 0` the claimed equivalence
fails: `0 < 2 ^ 0`, yet `binary 0 0` is the one-character string `"0"`, not
a zero-character one. -/
theorem binary_zero_zero_cex :
    binary 0 0 = ['0'] ∧ (0 : ℕ) < 2 ^ 0 ∧ (binary 0 0).length ≠ 0 := by
  refine ⟨rfl, by decide, by decide⟩

/-- C10 amended: `binary n length` is the base-2 representation of `n`
left-padded with `'0'` to at least `length` characters (its digit value is
`n`, and its length is at least `length`); for `length ≥ 1` it has exactly
`length` characters if and only if `n < 2 ^ length`, and for `n ≥ 2 ^
length` it is strictly longer than `length`; the only exception to the
exact-length equivalence is `n = 0` with `length = 0`, where the result is
the one-character string `"0"`. -/
theorem binary_padded_value_length (n L : ℕ) :
    binary n L = List.replicate (L - (pyBin n).length) '0' ++ pyBin n ∧
    bitsToNat (binary n L) = n ∧
    L ≤ (binary n L).length ∧
    (1 ≤ L → ((binary n L).length = L ↔ n < 2 ^ L)) ∧
    (2 ^ L ≤ n → L < (binary n L).length) := by
  have hpb : bitsToNat (pyBin n) = n := by
    by_cases h0 : n = 0
    · subst h0
      rfl
    · rw [show pyBin n = natBits n by simp [pyBin, h0]]
      exact bitsToNat_natBits n
  have hlen : (binary n L).length = (L - (pyBin n).length) + (pyBin n).length := by
    simp [binary, zfill]
  have hpos := pyBin_length_pos n
  refine ⟨rfl, ?_, ?_, ?_, ?_⟩
  · calc bitsToNat (binary n L)
        = bitsToNat (pyBin n) := bitsToNat_replicate_zero_append _ _
      _ = n := hpb
  · omega
  · intro hL
    rw [hlen, ← pyBin_length_le_iff n L hL]
    omega
  · intro h2n
    have h1L : ¬ n < 2 ^ L := by omega
    have hn0 : n ≠ 0 := by
      have := pow_pos (two_pos : (0 : ℕ) < 2) L
      omega
    have hgt : ¬ (pyBin n).length ≤ L := by
      rw [show pyBin n = natBits n by simp [pyBin, hn0],
        natBits_length_le_iff n L]
      exact h1L
    omega

/-- C10 amended witness: instantiation at `n = 5`, `length = 8`. -/
theorem binary_padded_value_length_witness :
    (1 ≤ 8 → ((binary 5 8).length = 8 ↔ 5 < 2 ^ 8)) ∧
    (2 ^ 8 ≤ 5 → 8 < (binary 5 8).length) :=
  ⟨(binary_padded_value_length 5 8).2.2.2.1,
   (binary_padded_value_length 5 8).2.2.2.2⟩

/-- Entry of the top-level `integration_weights` table: a name and the
`cosine` and `sine` coefficient lists, each a list of
(coefficient, duration-in-ns) pairs. -/
structure IwEntry where
  name : String
  cosine : List (ℚ × ℕ)
  sine : List (ℚ × ℕ)

/-- Entry of the `pulses` table: operation type, length in ns, waveform
role-to-name mapping, and (for measurement pulses) the local
integration-weights label-to-name mapping. -/
structure Pulse where
  name : String
  operation : String
  length : ℕ
  waveforms : List (String × String)
  integration_weights : List (String × String)

/-- Entry of the `elements` table, reduced to the claim-relevant field: its
operation name-to-pulse-name mapping.  Ports, frequencies, mixers and
readout metadata of the source entries carry no cross-table references to
check here. -/
structure Element where
  name : String
  operations : List (String × String)

/-- Claim-relevant projection of a vendor configuration dictionary:
elements, pulses, the keys and types of the `waveforms` table, and the
`integration_weights` table. -/
structure Config where
  elements : List Element
  pulses : List Pulse
  waveforms : List (String × String)
  integration_weights : List IwEntry

/-- Static configuration of
`configuration_cavity_locking_ETHZ_OPX1.py`, with
`u.us = 1000` ns (so `phase_mod_len = readout_len = 100000`),
`const_len = 100`, `offset_len = 16`. -/
def cavityConfig : Config :=
  { elements :=
      [⟨"phase_modulator", [("cw", "phase_mod_pulse")]⟩,
       ⟨"filter_cavity_1", [("offset", "offset_pulse")]⟩,
       ⟨"detector_DC", [("readout", "DC_readout_pulse")]⟩,
       ⟨"detector_AC", [("readout", "AC_readout_pulse")]⟩],
    pulses :=
      [⟨"offset_pulse", "control", 16, [("single", "offset_wf")], []⟩,
       ⟨"phase_mod_pulse", "control", 100000, [("single", "phase_mod_wf")], []⟩,
       ⟨"cw_pulse", "control", 100, [("single", "const_wf")], []⟩,
       ⟨"DC_readout_pulse", "measurement", 100000, [("single", "zero_wf")],
         [("constant", "constant_weights")]⟩,
       ⟨"AC_readout_pulse", "measurement", 100000, [("single", "zero_wf")],
         [("constant", "constant_weights")]⟩],
    waveforms :=
      [("phase_mod_wf", "constant"), ("const_wf", "constant"),
       ("offset_wf", "constant"), ("zero_wf", "constant")],
    integration_weights :=
      [⟨"constant_weights", [(1, 100000)], [(0, 100000)]⟩] }

/-- Static configuration of `two_qubit_rb_config.py`, with
`const_flux_len = 612`, `const_len = 100`, `square_pi_len = 100`,
`saturation_len = 1000`, `gauss_len = 200`, `displace_len = 40`, all drive
pulse lengths `x180_len = 40`, `short_readout_len = 500`,
`readout_len = 500`, `long_readout_len = 50000`, and
`rotation_angle = 0` (so `np.cos` of it is 1 and `np.sin` of it is 0 in the
rotated weights). -/
def rbConfig : Config :=
  { elements :=
      [⟨"qe0",
        [("cw", "const_pulse"), ("saturation", "saturation_pulse"),
         ("gauss", "gaussian_pulse"), ("pi", "x180_pulse"),
         ("pi_half", "x90_pulse"), ("x90", "x90_pulse"),
         ("x180", "x180_pulse"), ("-x90", "-x90_pulse"),
         ("y90", "y90_pulse"), ("y180", "y180_pulse"),
         ("-y90", "-y90_pulse")]⟩,
       ⟨"qe1",
        [("cw", "const_pulse"), ("saturation", "saturation_pulse"),
         ("gauss", "gaussian_pulse"), ("pi", "x180_pulse"),
         ("pi_half", "x90_pulse"), ("x90", "x90_pulse"),
         ("x180", "x180_pulse"), ("-x90", "-x90_pulse"),
         ("y90", "y90_pulse"), ("y180", "y180_pulse"),
         ("-y90", "-y90_pulse")]⟩,
       ⟨"crtqe1cqe0", [("cw", "const_pulse")]⟩,
       ⟨"rr0",
        [("cw", "const_pulse"), ("displace", "displace_pulse"),
         ("short_readout", "short_readout_pulse"),
         ("readout", "readout_pulse"),
         ("long_readout", "long_readout_pulse")]⟩,
       ⟨"rr1",
        [("cw", "const_pulse"), ("displace", "displace_pulse"),
         ("short_readout", "short_readout_pulse"),
         ("readout", "readout_pulse"),
         ("long_readout", "long_readout_pulse")]⟩,
       ⟨"qubit0_flux_qe", [("iswap_pulse", "const_flux_pulse")]⟩],
    pulses :=
      [⟨"const_flux_pulse", "control", 612, [("single", "const_flux_wf")], []⟩,
       ⟨"const_pulse", "control", 100,
         [("I", "const_wf"), ("Q", "zero_wf")], []⟩,
       ⟨"square_pi_pulse", "control", 100,
         [("I", "square_pi_wf"), ("Q", "zero_wf")], []⟩,
       ⟨"saturation_pulse", "control", 1000,
         [("I", "saturation_drive_wf"), ("Q", "zero_wf")], []⟩,
       ⟨"gaussian_pulse", "control", 200,
         [("I", "gauss_wf"), ("Q", "zero_wf")], []⟩,
       ⟨"displace_pulse", "control", 40,
         [("I", "displace_wf"), ("Q", "displace_wf")], []⟩,
       ⟨"x90_pulse", "control", 40,
         [("I", "x90_I_wf"), ("Q", "x90_Q_wf")], []⟩,
       ⟨"x180_pulse", "control", 40,
         [("I", "x180_I_wf"), ("Q", "x180_Q_wf")], []⟩,
       ⟨"-x90_pulse", "control", 40,
         [("I", "minus_x90_I_wf"), ("Q", "minus_x90_Q_wf")], []⟩,
       ⟨"y90_pulse", "control", 40,
         [("I", "y90_I_wf"), ("Q", "y90_Q_wf")], []⟩,
       ⟨"y180_pulse", "control", 40,
         [("I", "y180_I_wf"), ("Q", "y180_Q_wf")], []⟩,
       ⟨"-y90_pulse", "control", 40,
         [("I", "minus_y90_I_wf"), ("Q", "minus_y90_Q_wf")], []⟩,
       ⟨"short_readout_pulse", "measurement", 500,
         [("I", "short_readout_wf"), ("Q", "zero_wf")],
         [("cos", "short_cosine_weights"), ("sin", "short_sine_weights"),
          ("minus_sin", "short_minus_sine_weights"),
          ("rotated_cos", "short_rotated_cosine_weights"),
          ("rotated_sin", "short_rotated_sine_weights"),
          ("rotated_minus_sin", "short_rotated_minus_sine_weights")]⟩,
       ⟨"readout_pulse", "measurement", 500,
         [("I", "readout_wf"), ("Q", "zero_wf")],
         [("cos", "cosine_weights"), ("sin", "sine_weights"),
          ("minus_sin", "minus_sine_weights"),
          ("rotated_cos", "rotated_cosine_weights"),
          ("rotated_sin", "rotated_sine_weights"),
          ("rotated_minus_sin", "rotated_minus_sine_weights")]⟩,
       ⟨"long_readout_pulse", "measurement", 50000,
         [("I", "long_readout_wf"), ("Q", "zero_wf")],
         [("cos", "long_cosine_weights"), ("sin", "long_sine_weights"),
          ("minus_sin", "long_minus_sine_weights"),
          ("rotated_cos", "long_rotated_cosine_weights"),
          ("rotated_sin", "long_rotated_sine_weights"),
          ("rotated_minus_sin", "long_rotated_minus_sine_weights")]⟩],
    waveforms :=
      [("const_flux_wf", "constant"), ("const_wf", "constant"),
       ("saturation_drive_wf", "constant"), ("square_pi_wf", "constant"),
       ("displace_wf", "arbitrary"), ("zero_wf", "constant"),
       ("gauss_wf", "arbitrary"), ("x90_I_wf", "arbitrary"),
       ("x90_Q_wf", "arbitrary"), ("x180_I_wf", "arbitrary"),
       ("x180_Q_wf", "arbitrary"), ("minus_x90_I_wf", "arbitrary"),
       ("minus_x90_Q_wf", "arbitrary"), ("y90_Q_wf", "arbitrary"),
       ("y90_I_wf", "arbitrary"), ("y180_Q_wf", "arbitrary"),
       ("y180_I_wf", "arbitrary"), ("minus_y90_Q_wf", "arbitrary"),
       ("minus_y90_I_wf", "arbitrary"), ("short_readout_wf", "constant"),
       ("readout_wf", "constant"), ("long_readout_wf", "constant")],
    integration_weights :=
      [⟨"short_cosine_weights", [(1, 500)], [(0, 500)]⟩,
       ⟨"short_sine_weights", [(0, 500)], [(1, 500)]⟩,
       ⟨"short_minus_sine_weights", [(0, 500)], [(-1, 500)]⟩,
       ⟨"short_rotated_cosine_weights", [(1, 500)], [(0, 500)]⟩,
       ⟨"short_rotated_sine_weights", [(0, 500)], [(1, 500)]⟩,
       ⟨"short_rotated_minus_sine_weights", [(0, 500)], [(-1, 500)]⟩,
       ⟨"cosine_weights", [(1, 500)], [(0, 500)]⟩,
       ⟨"sine_weights", [(0, 500)], [(1, 500)]⟩,
       ⟨"minus_sine_weights", [(0, 500)], [(-1, 500)]⟩,
       ⟨"rotated_cosine_weights", [(1, 500)], [(0, 500)]⟩,
       ⟨"rotated_sine_weights", [(0, 500)], [(1, 500)]⟩,
       ⟨"rotated_minus_sine_weights", [(0, 500)], [(-1, 500)]⟩,
       ⟨"long_cosine_weights", [(1, 50000)], [(0, 50000)]⟩,
       ⟨"long_sine_weights", [(0, 50000)], [(1, 50000)]⟩,
       ⟨"long_minus_sine_weights", [(0, 50000)], [(-1, 50000)]⟩,
       ⟨"long_rotated_cosine_weights", [(1, 50000)], [(0, 50000)]⟩,
       ⟨"long_rotated_sine_weights", [(0, 50000)], [(1, 50000)]⟩,
       ⟨"long_rotated_minus_sine_weights", [(0, 50000)], [(-1, 50000)]⟩] }

/-- Membership of a key in a string-keyed table. -/
def hasKey (tbl : List (String × String)) (k : String) : Bool :=
  tbl.any (fun e => e.1 == k)

/-- Check that a pulse entry carries a nonempty operation type and a
waveforms mapping whose waveform names all occur as keys of the top-level
`waveforms` table (the numeric length is carried by the `length` field of
the structure itself). -/
def pulseOk (cfg : Config) (p : Pulse) : Bool :=
  !p.operation.isEmpty && !p.waveforms.isEmpty &&
    p.waveforms.all (fun w => hasKey cfg.waveforms w.2)

/-- Check that every operation of an element names a key of the `pulses`
table. -/
def elementOk (cfg : Config) (e : Element) : Bool :=
  e.operations.all (fun o => cfg.pulses.any (fun p => p.name == o.2))

/-- Claim C5's invariant for one configuration. -/
def configRefsOk (cfg : Config) : Bool :=
  cfg.pulses.all (pulseOk cfg) && cfg.elements.all (elementOk cfg)

/-- Total duration covered by a coefficient list, in ns. -/
def iwDuration (l : List (ℚ × ℕ)) : ℕ := (l.map (fun e => e.2)).sum

/-- Check that a measurement pulse's referenced integration-weights entries
all exist, have nonempty cosine and sine lists, and that each list's total
duration equals the pulse length. -/
def measurementIwOk (cfg : Config) (p : Pulse) : Bool :=
  p.integration_weights.all (fun pr =>
    cfg.integration_weights.any (fun iw =>
      iw.name == pr.2 && !iw.cosine.isEmpty && !iw.sine.isEmpty &&
        iwDuration iw.cosine == p.length && iwDuration iw.sine == p.length))

/-- Claim C6's invariant for one configuration. -/
def configIwOk (cfg : Config) : Bool :=
  cfg.pulses.all (fun p => !(p.operation == "measurement") || measurementIwOk cfg p)

/-- C5: in both static configurations, every pulse carries an operation
type, a length and a waveforms mapping resolving into the top-level
`waveforms` table, and every operation of every element resolves into the
`pulses` table. -/
theorem config_references_closed :
    configRefsOk cavityConfig = true ∧ configRefsOk rbConfig = true := by
  constructor <;> decide

/-- C6: in both static configurations, every integration-weights entry
referenced by a measurement pulse exists, has both cosine and sine
coefficient lists, and each list covers exactly the referencing pulse's
length. -/
theorem config_integration_weights_cover :
    configIwOk cavityConfig = true ∧ configIwOk rbConfig = true := by
  constructor <;> decide
